import Mathlib

/-!
Verification of the audio stem separation service (`main.py`, `worker_task.py`,
`database.py`, `config.py`) against its natural-language specification.

The embedding is shallow: each Python function relevant to the claims is
translated into a pure Lean function.  Stateful effects (the SQL `jobs` table,
the Redis result cache, the RQ queue, the on-disk job workspaces) are passed
explicitly as values.  External collaborators (`download_audio`,
`separate_stems`) and infrastructure outcomes (queue enqueue, commit success)
are supplied through explicit environment records, mirroring the spec's view
of them as out-of-scope collaborators that either succeed or raise.
-/

set_option maxRecDepth 8000

/-- Dynamic value passed as a keyword argument to `update_job_status`
(`database.py`).  The source callers only ever pass strings and integers. -/
inductive FieldValue
  | str (s : String)
  | nat (n : Nat)
deriving DecidableEq

/-- Keyword-argument list, mirroring Python `**kwargs` (ordered). -/
abbrev Kw := List (String × FieldValue)

/-- A row of the `jobs` table (`database.py`, class `Job`).  Timestamps are
abstract ticks (`Nat`).  `progress` has SQL default 0, `status` default
pending; nullable columns are `Option`. -/
structure Job where
  id : String
  url : String
  status : String
  stems : Option String
  stems_dir : Option String
  error : Option String
  progress : Nat
  created_at : Nat
  updated_at : Nat
  client_ip : Option String
  processing_time : Option Nat
deriving DecidableEq

/-- The attribute names a `Job` instance has, used to model Python's
`hasattr(job, key)` check in `update_job_status`. -/
def jobAttrNames : List String :=
  ["id", "url", "status", "stems", "stems_dir", "error", "progress",
   "created_at", "updated_at", "client_ip", "processing_time"]

def asStr : FieldValue → Option String
  | .str s => some s
  | _ => none

def asNat : FieldValue → Option Nat
  | .nat n => some n
  | _ => none

/-- Python `setattr(job, key, value)` for the known `Job` attributes: exactly
the attribute named `k` is assigned.  The source callers always pass a value
of the column's type; a mismatched dynamic type (never exercised in the
source) leaves the field unchanged here. -/
def setAttr (j : Job) (k : String) (v : FieldValue) : Job :=
  { id := if k = "id" then (asStr v).getD j.id else j.id,
    url := if k = "url" then (asStr v).getD j.url else j.url,
    status := if k = "status" then (asStr v).getD j.status else j.status,
    stems := if k = "stems" then (asStr v).orElse fun _ => j.stems else j.stems,
    stems_dir := if k = "stems_dir" then (asStr v).orElse fun _ => j.stems_dir else j.stems_dir,
    error := if k = "error" then (asStr v).orElse fun _ => j.error else j.error,
    progress := if k = "progress" then (asNat v).getD j.progress else j.progress,
    created_at := if k = "created_at" then (asNat v).getD j.created_at else j.created_at,
    updated_at := if k = "updated_at" then (asNat v).getD j.updated_at else j.updated_at,
    client_ip := if k = "client_ip" then (asStr v).orElse fun _ => j.client_ip else j.client_ip,
    processing_time := if k = "processing_time" then (asNat v).orElse fun _ => j.processing_time
      else j.processing_time }

/-- The `for key, value in kwargs.items(): if hasattr(job, key): setattr(...)`
loop of `update_job_status`: applies known fields in order, silently skips
unknown names. -/
def applyKw (j : Job) : Kw → Job
  | [] => j
  | (k, v) :: rest =>
      applyKw (if k ∈ jobAttrNames then setAttr j k v else j) rest

/-- `db.query(Job).filter(Job.id == job_id).first()`. -/
def findJob (jobs : List Job) (job_id : String) : Option Job :=
  jobs.find? (fun j => j.id == job_id)

/-- Mutate the first row matching `job_id` (the row `.first()` returned). -/
def updateFirst (f : Job → Job) (job_id : String) : List Job → List Job
  | [] => []
  | j :: rest =>
      if j.id = job_id then f j :: rest else j :: updateFirst f job_id rest

/-- `update_job_status` from `database.py`.  `commitOk` models whether the
`db.commit()` succeeds; on a failed commit the `except` branch rolls the
session back (state unchanged) and returns `False`.  A missing job returns
`False` without mutating anything.  No exception escapes: the whole body is
wrapped in `try/except`. -/
def update_job_status (jobs : List Job) (commitOk : Bool) (job_id status : String)
    (now : Nat) (kw : Kw) : List Job × Bool :=
  match findJob jobs job_id with
  | none => (jobs, false)
  | some _ =>
      if commitOk then
        (updateFirst (fun j => applyKw { j with status := status, updated_at := now } kw)
          job_id jobs, true)
      else (jobs, false)

theorem setAttr_id (j : Job) (k : String) (v : FieldValue) (h : ¬k = "id") :
    (setAttr j k v).id = j.id := by
  simp [setAttr, h]

theorem setAttr_status (j : Job) (k : String) (v : FieldValue) (h : ¬k = "status") :
    (setAttr j k v).status = j.status := by
  simp [setAttr, h]

theorem setAttr_updated_at (j : Job) (k : String) (v : FieldValue) (h : ¬k = "updated_at") :
    (setAttr j k v).updated_at = j.updated_at := by
  simp [setAttr, h]

theorem applyKw_id (j : Job) (kw : Kw) (h : kw.all (fun p => p.1 != "id") = true) :
    (applyKw j kw).id = j.id := by
  induction kw generalizing j with
  | nil => rfl
  | cons p rest ih =>
      obtain ⟨k, v⟩ := p
      rw [List.all_cons, Bool.and_eq_true] at h
      simp only [applyKw]
      rw [ih _ h.2]
      by_cases hk : k ∈ jobAttrNames
      · rw [if_pos hk]
        exact setAttr_id j k v (by simpa using h.1)
      · rw [if_neg hk]

theorem applyKw_status (j : Job) (kw : Kw)
    (h : kw.all (fun p => p.1 != "status") = true) :
    (applyKw j kw).status = j.status := by
  induction kw generalizing j with
  | nil => rfl
  | cons p rest ih =>
      obtain ⟨k, v⟩ := p
      rw [List.all_cons, Bool.and_eq_true] at h
      simp only [applyKw]
      rw [ih _ h.2]
      by_cases hk : k ∈ jobAttrNames
      · rw [if_pos hk]
        exact setAttr_status j k v (by simpa using h.1)
      · rw [if_neg hk]

theorem applyKw_updated_at (j : Job) (kw : Kw)
    (h : kw.all (fun p => p.1 != "updated_at") = true) :
    (applyKw j kw).updated_at = j.updated_at := by
  induction kw generalizing j with
  | nil => rfl
  | cons p rest ih =>
      obtain ⟨k, v⟩ := p
      rw [List.all_cons, Bool.and_eq_true] at h
      simp only [applyKw]
      rw [ih _ h.2]
      by_cases hk : k ∈ jobAttrNames
      · rw [if_pos hk]
        exact setAttr_updated_at j k v (by simpa using h.1)
      · rw [if_neg hk]

theorem findJob_updateFirst (f : Job → Job) (job_id : String) (jobs : List Job)
    (h : ∀ j', (f j').id = j'.id) :
    findJob (updateFirst f job_id jobs) job_id = (findJob jobs job_id).map f := by
  induction jobs with
  | nil => rfl
  | cons j rest ih =>
      simp only [updateFirst]
      by_cases hj : j.id = job_id
      · rw [if_pos hj]
        simp [findJob, List.find?_cons, hj, h j]
      · rw [if_neg hj]
        have h1 : (j.id == job_id) = false := by simpa using hj
        simp only [findJob, List.find?_cons, h1, cond_false] at *
        exact ih

/-- **C10.** Contract of `update_job_status`: (i) an unknown job id leaves the
store unchanged and returns `False`; (ii) a failed commit rolls back (store
unchanged) and returns `False` — no exception propagates, every call returns a
Boolean; (iii) on success (job present, commit succeeds, and the keyword list
does not rewrite the primary key — source callers never pass `id`) it returns
`True` and the stored row is the old row with the status set, `updated_at`
bumped, and the keyword fields applied; (iv) a keyword whose name is not a
`Job` attribute is silently ignored; (v) when the keyword list does not name
`status`/`updated_at` itself, the committed row carries exactly the requested
status and timestamp. -/
theorem c10_update_job_status_contract :
    (∀ jobs commitOk job_id status now kw, findJob jobs job_id = none →
        update_job_status jobs commitOk job_id status now kw = (jobs, false)) ∧
    (∀ jobs job_id status now kw,
        update_job_status jobs false job_id status now kw = (jobs, false)) ∧
    (∀ jobs job_id status now kw (j : Job), findJob jobs job_id = some j →
        kw.all (fun p => p.1 != "id") = true →
        (update_job_status jobs true job_id status now kw).2 = true ∧
        findJob (update_job_status jobs true job_id status now kw).1 job_id =
          some (applyKw { j with status := status, updated_at := now } kw)) ∧
    (∀ j k v kw, ¬k ∈ jobAttrNames →
        applyKw j ((k, v) :: kw) = applyKw j kw) ∧
    (∀ (j : Job) kw status now, kw.all (fun p => p.1 != "status") = true →
        kw.all (fun p => p.1 != "updated_at") = true →
        ((applyKw { j with status := status, updated_at := now } kw).status = status ∧
          (applyKw { j with status := status, updated_at := now } kw).updated_at = now)) := by
  refine ⟨?_, ?_, ?_, ?_, ?_⟩
  · intro jobs commitOk job_id status now kw h
    simp [update_job_status, h]
  · intro jobs job_id status now kw
    unfold update_job_status
    cases h : findJob jobs job_id <;> simp
  · intro jobs job_id status now kw j h hid
    constructor
    · simp [update_job_status, h]
    · simp only [update_job_status, h, if_pos]
      have heq : ∀ j' : Job,
          (applyKw { j' with status := status, updated_at := now } kw).id = j'.id := by
        intro j'
        exact applyKw_id _ kw hid
      rw [findJob_updateFirst _ _ _ heq, h]
      rfl
  · intro j k v kw h
    simp [applyKw, h]
  · intro j kw status now hs hu
    constructor
    · rw [applyKw_status _ kw hs]
    · rw [applyKw_updated_at _ kw hu]

def c10Job : Job := ⟨"j1", "u", "pending", none, none, none, 0, 1, 1, some "ip", none⟩

/-- Witness for C10 at a concrete store: a present job is updated and the
contract's conclusions evaluate as stated. -/
theorem c10_update_job_status_witness :
    update_job_status [] true "j1" "error" 2 [] = ([], false) ∧
    update_job_status [c10Job] false "j1" "error" 2 [] = ([c10Job], false) ∧
    (update_job_status [c10Job] true "j1" "processing" 2
        [("progress", FieldValue.nat 10), ("bogus", FieldValue.nat 5)]).2 = true ∧
    findJob (update_job_status [c10Job] true "j1" "processing" 2
        [("progress", FieldValue.nat 10), ("bogus", FieldValue.nat 5)]).1 "j1" =
      some (applyKw { c10Job with status := "processing", updated_at := 2 }
        [("progress", FieldValue.nat 10), ("bogus", FieldValue.nat 5)]) ∧
    applyKw c10Job [("bogus", FieldValue.nat 5)] = applyKw c10Job [] ∧
    (applyKw { c10Job with status := "processing", updated_at := 2 }
        [("progress", FieldValue.nat 10)]).status = "processing" := by
  refine ⟨?_, ?_, ?_, ?_, ?_, ?_⟩
  · exact c10_update_job_status_contract.1 [] true "j1" "error" 2 [] (by decide)
  · exact c10_update_job_status_contract.2.1 [c10Job] "j1" "error" 2 []
  · exact (c10_update_job_status_contract.2.2.1 [c10Job] "j1" "processing" 2
      [("progress", FieldValue.nat 10), ("bogus", FieldValue.nat 5)] c10Job
      (by decide) (by decide)).1
  · exact (c10_update_job_status_contract.2.2.1 [c10Job] "j1" "processing" 2
      [("progress", FieldValue.nat 10), ("bogus", FieldValue.nat 5)] c10Job
      (by decide) (by decide)).2
  · exact c10_update_job_status_contract.2.2.2.1 c10Job "bogus" (FieldValue.nat 5) []
      (by decide)
  · exact (c10_update_job_status_contract.2.2.2.2 c10Job [("progress", FieldValue.nat 10)]
      "processing" 2 (by decide) (by decide)).1

/-! ## Submission path (`main.py`, endpoint `separate_audio`) -/

/-- The settings from `config.py` used by the embedded core. -/
structure Settings where
  max_concurrent_jobs : Nat
  max_retries : Nat
  jobs_base_dir : String
deriving DecidableEq

/-- `config.py` defaults: cap 2, `max_retries` 3 (declared but, as shown in
the retry analysis, never wired into the queue), jobs directory `jobs`. -/
def settings : Settings := ⟨2, 3, "jobs"⟩

/-- One Redis `url_cache:<url>` hash: fields `stems`, `stems_dir`,
`cached_at`, together with the TTL installed by `redis_conn.expire`. -/
structure CacheEntry where
  stems : String
  stems_dir : String
  cached_at : Nat
  ttl : Nat
deriving DecidableEq

abbrev RCache := List (String × CacheEntry)

/-- `redis_conn.hgetall(f"url_cache:{url}")`; an absent or expired key gives
the empty (falsy) dict, i.e. `none`. -/
def cacheLookup (c : RCache) (k : String) : Option CacheEntry :=
  (c.find? (fun p => p.1 == k)).map (fun p => p.2)

/-- `hset` of all three fields followed by `expire`: the key now holds exactly
this entry. -/
def cacheStore (c : RCache) (k : String) (e : CacheEntry) : RCache :=
  (k, e) :: c.filter (fun p => p.1 != k)

/-- An RQ task enqueued by `job_queue.enqueue(process_job, url, job_id, ...)`. -/
structure QueuedTask where
  url : String
  job_id : String
deriving DecidableEq

/-- The mutable world the submission endpoint touches: the `jobs` table, the
Redis result cache, and the RQ queue. -/
structure Sys where
  jobs : List Job
  cache : RCache
  queue : List QueuedTask
deriving DecidableEq

/-- A status-update call recorded for state-machine analysis: the requested
status and the keyword arguments passed alongside it. -/
structure Upd where
  status : String
  kwargs : Kw
deriving DecidableEq

/-- Environment of one request: the URL-validation verdict from
`security_manager.validate_youtube_url` (an external collaborator), the fresh
`uuid4` id, the clock, whether `job_queue.enqueue` raises, the raised
message, and whether the follow-up error-marking commit succeeds. -/
structure SubmitEnv where
  urlValid : Bool
  newJobId : String
  now : Nat
  enqueueOk : Bool
  enqueueErrMsg : String
  markCommitOk : Bool

inductive SubmitResult
  | invalidUrl
  | tooMany (limit : Nat)
  | completedCached (job_id : String)
  | submitted (job_id : String)
  | enqueueFailed (msg : String)
deriving DecidableEq

structure SubmitOut where
  sys : Sys
  result : SubmitResult
  trace : List Upd
deriving DecidableEq

/-- `get_active_jobs_count` from `database.py`: live count of this client's
rows in status pending or processing, read from the store. -/
def get_active_jobs_count (jobs : List Job) (client_ip : String) : Nat :=
  (jobs.filter (fun j =>
    j.client_ip == some client_ip &&
      (j.status == "pending" || j.status == "processing"))).length

/-- The record synthesized on a cache hit: already completed, progress 100,
the cached stems and location copied by value. -/
def cachedJob (env : SubmitEnv) (url client_ip : String) (e : CacheEntry) : Job :=
  ⟨env.newJobId, url, "completed", some e.stems, some e.stems_dir, none, 100,
   env.now, env.now, some client_ip, none⟩

/-- The record created on a cache miss: pending, with the column defaults
(`progress` 0, nullable columns null). -/
def pendingJob (env : SubmitEnv) (url client_ip : String) : Job :=
  ⟨env.newJobId, url, "pending", none, none, none, 0,
   env.now, env.now, some client_ip, none⟩

/-- The `POST /separate` handler `separate_audio` from `main.py`, in source
order: URL validation, admission check against the live count, cache lookup,
then either a synthesized completed record, or a pending record followed by
the enqueue (whose failure is answered by marking the record `error`).
`trace` records the `update_job_status` calls the handler issues. -/
def separate_audio (cfg : Settings) (st : Sys) (env : SubmitEnv)
    (url client_ip : String) : SubmitOut :=
  if env.urlValid = false then ⟨st, .invalidUrl, []⟩
  else if cfg.max_concurrent_jobs ≤ get_active_jobs_count st.jobs client_ip then
    ⟨st, .tooMany cfg.max_concurrent_jobs, []⟩
  else
    match cacheLookup st.cache url with
    | some entry =>
        ⟨⟨st.jobs ++ [cachedJob env url client_ip entry], st.cache, st.queue⟩,
         .completedCached env.newJobId, []⟩
    | none =>
        if env.enqueueOk then
          ⟨⟨st.jobs ++ [pendingJob env url client_ip], st.cache,
            st.queue ++ [⟨url, env.newJobId⟩]⟩,
           .submitted env.newJobId, []⟩
        else
          ⟨⟨(update_job_status (st.jobs ++ [pendingJob env url client_ip])
               env.markCommitOk env.newJobId "error" env.now
               [("error", FieldValue.str env.enqueueErrMsg)]).1,
            st.cache, st.queue⟩,
           .enqueueFailed env.enqueueErrMsg,
           [⟨"error", [("error", FieldValue.str env.enqueueErrMsg)]⟩]⟩

/-- **C2.** `settings.max_concurrent_jobs` defaults to 2, and for a submission
that passes URL validation, the request is answered with the too-many-active
rejection carrying the configured limit, with the whole state (store, cache,
queue) untouched and hence no record created, exactly when the client's live
pending+processing count in the store is at or above the cap. -/
theorem c2_admission_rejects_iff_at_cap :
    settings.max_concurrent_jobs = 2 ∧
    ∀ cfg st env url client_ip, env.urlValid = true →
      (((separate_audio cfg st env url client_ip).result =
          .tooMany cfg.max_concurrent_jobs ∧
        (separate_audio cfg st env url client_ip).sys = st) ↔
       cfg.max_concurrent_jobs ≤ get_active_jobs_count st.jobs client_ip) := by
  refine ⟨rfl, ?_⟩
  intro cfg st env url client_ip hv
  unfold separate_audio
  rw [hv]
  by_cases hcap : cfg.max_concurrent_jobs ≤ get_active_jobs_count st.jobs client_ip
  · simp [hcap]
  · rw [if_neg (by simp)]
    rw [if_neg hcap]
    constructor
    · intro h
      exfalso
      rcases hc : cacheLookup st.cache url with _ | entry
      · rw [hc] at h
        by_cases he : env.enqueueOk
        · simp [he] at h
        · simp [he] at h
      · rw [hc] at h
        simp at h
    · intro h
      exact absurd h hcap

def c2Job1 : Job := ⟨"a1", "u", "pending", none, none, none, 0, 1, 1, some "9.9.9.9", none⟩

def c2Job2 : Job := ⟨"a2", "u2", "processing", none, none, none, 10, 1, 1, some "9.9.9.9", none⟩

def c2Sys : Sys := ⟨[c2Job1, c2Job2], [], []⟩

def c2Env : SubmitEnv := ⟨true, "a3", 2, true, "", true⟩

/-- Witness for C2: a client with two active jobs (the default cap) submitting
a third time is rejected with limit 2 and the state is unchanged. -/
theorem c2_admission_witness :
    (separate_audio settings c2Sys c2Env "u3" "9.9.9.9").result = .tooMany 2 ∧
    (separate_audio settings c2Sys c2Env "u3" "9.9.9.9").sys = c2Sys :=
  (c2_admission_rejects_iff_at_cap.2 settings c2Sys c2Env "u3" "9.9.9.9" rfl).mpr
    (by decide)

/-! ## C3: cache-hit submissions and admission accounting -/

def c3Entry : CacheEntry := ⟨"vocals,drums", "jobs/x/htdemucs/audio", 0, 604800⟩

def c3Sys : Sys := ⟨[c2Job1, c2Job2], [("u", c3Entry)], []⟩

def c3Env : SubmitEnv := ⟨true, "b1", 3, true, "", true⟩

/-- **C3, counterexample.** A client at the cap (2 active jobs) submits a URL
that has a live cache entry.  The claim says the submission is exempt from
admission accounting and succeeds; the code checks admission before the cache
lookup, so it is rejected with the too-many error and no completed record is
synthesized. -/
theorem c3_cache_hit_not_exempt_from_cap :
    cacheLookup c3Sys.cache "u" = some c3Entry ∧
    get_active_jobs_count c3Sys.jobs "9.9.9.9" = 2 ∧
    (separate_audio settings c3Sys c3Env "u" "9.9.9.9").result = .tooMany 2 ∧
    (separate_audio settings c3Sys c3Env "u" "9.9.9.9").sys = c3Sys := by
  decide

/-- **C3 (amended).** For a submission that passes URL validation *and the
admission check* (client strictly below the cap) and whose URL has a live
cache entry, a fresh JobRecord is created already completed with progress 100
and the cached stems and output location copied by value, the queue and cache
are untouched and no pipeline collaborator is invoked.  (The exemption from
admission accounting claimed by the spec does not hold: see the
counterexample — the admission check runs first.) -/
theorem c3_cache_hit_under_cap_completes (cfg : Settings) (st : Sys) (env : SubmitEnv)
    (url client_ip : String) (entry : CacheEntry)
    (hv : env.urlValid = true)
    (hcap : get_active_jobs_count st.jobs client_ip < cfg.max_concurrent_jobs)
    (hc : cacheLookup st.cache url = some entry) :
    (separate_audio cfg st env url client_ip).result = .completedCached env.newJobId ∧
    (separate_audio cfg st env url client_ip).sys.jobs =
      st.jobs ++ [cachedJob env url client_ip entry] ∧
    (separate_audio cfg st env url client_ip).sys.queue = st.queue ∧
    (separate_audio cfg st env url client_ip).sys.cache = st.cache ∧
    (cachedJob env url client_ip entry).status = "completed" ∧
    (cachedJob env url client_ip entry).progress = 100 ∧
    (cachedJob env url client_ip entry).stems = some entry.stems ∧
    (cachedJob env url client_ip entry).stems_dir = some entry.stems_dir := by
  unfold separate_audio
  rw [hv, if_neg (by simp), if_neg (not_le.mpr hcap), hc]
  exact ⟨rfl, rfl, rfl, rfl, rfl, rfl, rfl, rfl⟩

def c3SysUnder : Sys := ⟨[c2Job1], [("u", c3Entry)], []⟩

/-- Witness for the amended C3 at a concrete under-cap state. -/
theorem c3_cache_hit_witness :
    (separate_audio settings c3SysUnder c3Env "u" "9.9.9.9").result =
      .completedCached "b1" ∧
    (separate_audio settings c3SysUnder c3Env "u" "9.9.9.9").sys.jobs =
      c3SysUnder.jobs ++ [cachedJob c3Env "u" "9.9.9.9" c3Entry] ∧
    (separate_audio settings c3SysUnder c3Env "u" "9.9.9.9").sys.queue = [] ∧
    (cachedJob c3Env "u" "9.9.9.9" c3Entry).progress = 100 := by
  have h := c3_cache_hit_under_cap_completes settings c3SysUnder c3Env "u" "9.9.9.9"
    c3Entry rfl (by decide) (by decide)
  exact ⟨h.1, h.2.1, h.2.2.1, h.2.2.2.2.2.1⟩

/-! ## C5: record creation and enqueue as a single logical unit -/

/-- Every pending row has a matching queued task. -/
def pendingHasTask (st : Sys) : Bool :=
  st.jobs.all (fun j => j.status != "pending" || st.queue.any (fun t => t.job_id == j.id))

/-- Every queued task has a matching row. -/
def taskHasRecord (st : Sys) : Bool :=
  st.queue.all (fun t => st.jobs.any (fun j => j.id == t.job_id))

def recordsTasksConsistent (st : Sys) : Bool := pendingHasTask st && taskHasRecord st

theorem pendingHasTask_iff (st : Sys) :
    pendingHasTask st = true ↔
      ∀ j ∈ st.jobs, j.status = "pending" → ∃ t ∈ st.queue, t.job_id = j.id := by
  simp only [pendingHasTask, List.all_eq_true, Bool.or_eq_true, bne_iff_ne, ne_eq,
    List.any_eq_true, beq_iff_eq]
  constructor
  · intro h j hj hp
    rcases h j hj with h1 | h2
    · exact absurd hp h1
    · exact h2
  · intro h j hj
    by_cases hp : j.status = "pending"
    · exact Or.inr (h j hj hp)
    · exact Or.inl hp

theorem taskHasRecord_iff (st : Sys) :
    taskHasRecord st = true ↔ ∀ t ∈ st.queue, ∃ j ∈ st.jobs, j.id = t.job_id := by
  simp only [taskHasRecord, List.all_eq_true, List.any_eq_true, beq_iff_eq]

theorem findJob_append_last (l : List Job) (j : Job)
    (h : ∀ x ∈ l, x.id ≠ j.id) :
    findJob (l ++ [j]) j.id = some j := by
  induction l with
  | nil => simp [findJob]
  | cons a rest ih =>
      have ha : (a.id == j.id) = false := by
        simpa using h a (by simp)
      simp only [List.cons_append, findJob, List.find?_cons, ha, cond_false]
      exact ih (fun x hx => h x (by simp [hx]))

theorem updateFirst_append_last (f : Job → Job) (l : List Job) (j : Job)
    (h : ∀ x ∈ l, x.id ≠ j.id) :
    updateFirst f j.id (l ++ [j]) = l ++ [f j] := by
  induction l with
  | nil => simp [updateFirst]
  | cons a rest ih =>
      have ha : ¬a.id = j.id := h a (by simp)
      simp only [List.cons_append, updateFirst, if_neg ha]
      congr 1
      exact ih (fun x hx => h x (by simp [hx]))

def isEnqueueFailed : SubmitResult → Bool
  | .enqueueFailed _ => true
  | _ => false

/-- The row the enqueue-failure handler leaves behind: the fresh pending row
with status `error`, the enqueue exception's message, and a bumped
`updated_at`. -/
def failedMarkJob (env : SubmitEnv) (url client_ip : String) : Job :=
  applyKw { pendingJob env url client_ip with status := "error", updated_at := env.now }
    [("error", FieldValue.str env.enqueueErrMsg)]

theorem failedMarkJob_spec (env : SubmitEnv) (url client_ip : String) :
    (failedMarkJob env url client_ip).status = "error" ∧
    (failedMarkJob env url client_ip).id = env.newJobId := by
  constructor <;> rfl

/-- **C5.** Starting from any state in which pending records and queued tasks
are matched one side to the other, any submission preserves that matching,
provided the fresh id is really fresh and the store accepts the error-marking
commit; and whenever the response is the enqueue-failure error, the freshly
created record is no longer pending but marked `error`. -/
theorem c5_record_and_task_atomicity (cfg : Settings) (st : Sys) (env : SubmitEnv)
    (url client_ip : String)
    (hcons : recordsTasksConsistent st = true)
    (hfresh : ∀ x ∈ st.jobs, x.id ≠ env.newJobId)
    (hmark : env.markCommitOk = true) :
    recordsTasksConsistent (separate_audio cfg st env url client_ip).sys = true ∧
    ((!isEnqueueFailed (separate_audio cfg st env url client_ip).result) ||
      (separate_audio cfg st env url client_ip).sys.jobs.all
        (fun j => j.id != env.newJobId || j.status == "error")) = true := by
  rw [recordsTasksConsistent, Bool.and_eq_true] at hcons
  have hp := (pendingHasTask_iff st).mp hcons.1
  have ht := (taskHasRecord_iff st).mp hcons.2
  unfold separate_audio
  by_cases hv : env.urlValid = false
  · rw [if_pos hv]
    constructor
    · rw [recordsTasksConsistent, Bool.and_eq_true]
      exact ⟨hcons.1, hcons.2⟩
    · rfl
  · rw [if_neg hv]
    by_cases hcap : cfg.max_concurrent_jobs ≤ get_active_jobs_count st.jobs client_ip
    · rw [if_pos hcap]
      constructor
      · rw [recordsTasksConsistent, Bool.and_eq_true]
        exact ⟨hcons.1, hcons.2⟩
      · rfl
    · rw [if_neg hcap]
      rcases hc : cacheLookup st.cache url with _ | entry
      · by_cases he : env.enqueueOk
        · rw [if_pos he]
          constructor
          · rw [recordsTasksConsistent, Bool.and_eq_true]
            constructor
            · rw [pendingHasTask_iff]
              intro j hj hjp
              simp only [List.mem_append, List.mem_singleton] at hj
              rcases hj with hj | hj
              · obtain ⟨t, htq, hte⟩ := hp j hj hjp
                exact ⟨t, by simp [htq], hte⟩
              · subst hj
                refine ⟨⟨url, env.newJobId⟩, by simp, rfl⟩
            · rw [taskHasRecord_iff]
              intro t htq
              simp only [List.mem_append, List.mem_singleton] at htq
              rcases htq with htq | htq
              · obtain ⟨j, hjq, hje⟩ := ht t htq
                exact ⟨j, by simp [hjq], hje⟩
              · subst htq
                exact ⟨pendingJob env url client_ip, by simp, rfl⟩
          · rfl
        · rw [if_neg he]
          have hrw : (update_job_status (st.jobs ++ [pendingJob env url client_ip])
              env.markCommitOk env.newJobId "error" env.now
              [("error", FieldValue.str env.enqueueErrMsg)]).1 =
              st.jobs ++ [failedMarkJob env url client_ip] := by
            rw [hmark]
            unfold update_job_status
            have hfind : findJob (st.jobs ++ [pendingJob env url client_ip])
                env.newJobId = some (pendingJob env url client_ip) :=
              findJob_append_last st.jobs (pendingJob env url client_ip) hfresh
            rw [hfind]
            simp only [if_pos]
            exact updateFirst_append_last _ st.jobs (pendingJob env url client_ip) hfresh
          constructor
          · rw [recordsTasksConsistent, Bool.and_eq_true]
            constructor
            · rw [pendingHasTask_iff]
              intro j hj hjp
              simp only [hrw, List.mem_append, List.mem_singleton] at hj
              rcases hj with hj | hj
              · obtain ⟨t, htq, hte⟩ := hp j hj hjp
                exact ⟨t, htq, hte⟩
              · subst hj
                exact absurd hjp (by rw [(failedMarkJob_spec env url client_ip).1]; decide)
            · rw [taskHasRecord_iff]
              intro t htq
              obtain ⟨j, hjq, hje⟩ := ht t htq
              exact ⟨j, by simp [hrw, hjq], hje⟩
          · simp only [hrw, isEnqueueFailed, Bool.not_true, Bool.false_or, List.all_append,
              List.all_cons, List.all_nil, Bool.and_true, Bool.and_eq_true]
            constructor
            · rw [List.all_eq_true]
              intro j hj
              have := hfresh j hj
              simp [this]
            · rw [(failedMarkJob_spec env url client_ip).1]
              simp
      · constructor
        · rw [recordsTasksConsistent, Bool.and_eq_true]
          constructor
          · rw [pendingHasTask_iff]
            intro j hj hjp
            simp only [List.mem_append, List.mem_singleton] at hj
            rcases hj with hj | hj
            · exact hp j hj hjp
            · subst hj
              exact absurd hjp (by simp [cachedJob])
          · rw [taskHasRecord_iff]
            intro t htq
            obtain ⟨j, hjq, hje⟩ := ht t htq
            exact ⟨j, by simp [hjq], hje⟩
        · rfl

def c5Env : SubmitEnv := ⟨true, "c1", 4, false, "queue down", true⟩

/-- Witness for C5: an empty, trivially consistent state; the enqueue fails,
and afterwards the state is still consistent and the fresh record is marked
`error`, not left pending. -/
theorem c5_record_and_task_atomicity_witness :
    recordsTasksConsistent (separate_audio settings ⟨[], [], []⟩ c5Env "u" "ip").sys = true ∧
    ((!isEnqueueFailed (separate_audio settings ⟨[], [], []⟩ c5Env "u" "ip").result) ||
      (separate_audio settings ⟨[], [], []⟩ c5Env "u" "ip").sys.jobs.all
        (fun j => j.id != "c1" || j.status == "error")) = true :=
  c5_record_and_task_atomicity settings ⟨[], [], []⟩ c5Env "u" "ip" (by decide)
    (by intro x hx; cases hx) rfl

/-! ## Worker side (`worker_task.py`, `process_job`) -/

/-- Flat model of the filesystem the worker touches: files as
(directory, basename) pairs plus the list of existing directories.  The
worker only creates files directly inside a named directory. -/
structure FS where
  files : List (String × String)
  dirs : List String
deriving DecidableEq

def memPath (p : String × String) : List (String × String) → Bool
  | [] => false
  | q :: rest => decide (q = p) || memPath p rest

def memDir (d : String) : List String → Bool
  | [] => false
  | e :: rest => decide (e = d) || memDir d rest

/-- `os.makedirs(d, exist_ok=True)`. -/
def mkdirs (fs : FS) (d : String) : FS :=
  if memDir d fs.dirs then fs else ⟨fs.files, d :: fs.dirs⟩

def addFile (fs : FS) (d n : String) : FS := ⟨fs.files ++ [(d, n)], fs.dirs⟩

def addFiles (fs : FS) (d : String) (ns : List String) : FS :=
  ⟨fs.files ++ ns.map (fun n => (d, n)), fs.dirs⟩

/-- `if os.path.exists(path): os.remove(path)`. -/
def removeFileIfExists (fs : FS) (d n : String) : FS :=
  if memPath (d, n) fs.files then
    ⟨fs.files.filter (fun p => !decide (p = (d, n))), fs.dirs⟩
  else fs

/-- Python `s.endswith(suff)`, on the character sequence. -/
def strEndsWith (s suff : String) : Bool :=
  s.data.reverse.take suff.data.length == suff.data.reverse

/-- Python slicing `s[:-n]` (for `n` at most the length), on the character
sequence. -/
def strDropRight (s : String) (n : Nat) : String :=
  ⟨s.data.take (s.data.length - n)⟩

/-- Python `s.startswith(r)`, on the character sequence. -/
def strStartsWith (s r : String) : Bool :=
  s.data.take r.data.length == r.data

def underDir (root p : String) : Bool := decide (p = root) || strStartsWith p (root ++ "/")

/-- `if os.path.exists(d): shutil.rmtree(d)`: removes the directory and
everything below it. -/
def rmtreeDir (fs : FS) (d : String) : FS :=
  if memDir d fs.dirs then
    ⟨fs.files.filter (fun p => !underDir d p.1), fs.dirs.filter (fun e => !underDir d e)⟩
  else fs

def listdir (fs : FS) (d : String) : List String :=
  (fs.files.filter (fun p => p.1 == d)).map (fun p => p.2)

/-- `stem_files = [f[:-4] for f in os.listdir(stems_dir) if f.endswith('.wav')]`
guarded by `if os.path.exists(stems_dir)` (else the empty list). -/
def stemFiles (fs : FS) (d : String) : List String :=
  if memDir d fs.dirs then
    ((listdir fs d).filter (fun f => strEndsWith f ".wav")).map (fun f => strDropRight f 4)
  else []

/-- `os.path.join(settings.jobs_base_dir, job_id)`. -/
def job_dir (job_id : String) : String := settings.jobs_base_dir ++ "/" ++ job_id

/-- Environment of one worker attempt.  `downloadResult` is the verdict of
the external `download_audio` collaborator (on success it writes `audio.wav`
into the job directory and returns its path, per `utils/yt_download.py`);
`separateResult` is the verdict of `separate_stems` (on success it returns
the stems directory it created, holding `producedFiles`); `now` is the
clock, `elapsed` the measured duration recorded as `processing_time`. -/
structure WorkerEnv where
  downloadResult : Except String Unit
  separateResult : Except String String
  producedFiles : List String
  now : Nat
  elapsed : Nat

/-- What the worker has written to disk after a successful fetch. -/
def fsAfterFetch (fs : FS) (job_id : String) : FS :=
  addFile (mkdirs fs (job_dir job_id)) (job_dir job_id) "audio.wav"

/-- What the worker has on disk after a successful transform into `sdir`. -/
def fsAfterTransform (fs : FS) (env : WorkerEnv) (job_id sdir : String) : FS :=
  addFiles (mkdirs (fsAfterFetch fs job_id) sdir) sdir env.producedFiles

/-- A `processing` progress update, as issued by `process_job`. -/
def procUpd (p : Nat) : Upd := ⟨"processing", [("progress", FieldValue.nat p)]⟩

/-- The terminal `error` update of the `except` branch. -/
def errUpd (msg : String) (elapsed : Nat) : Upd :=
  ⟨"error", [("error", FieldValue.str msg), ("processing_time", FieldValue.nat elapsed)]⟩

/-- The terminal `completed` update. -/
def doneUpd (stems sdir : String) (elapsed : Nat) : Upd :=
  ⟨"completed", [("progress", FieldValue.nat 100), ("stems", FieldValue.str stems),
                 ("stems_dir", FieldValue.str sdir),
                 ("processing_time", FieldValue.nat elapsed)]⟩

structure WorkerOut where
  jobs : List Job
  cache : RCache
  fs : FS
  trace : List Upd
  raised : Option String
deriving DecidableEq

/-- Apply one of the worker's `processing` progress updates to the store. -/
def updProc (jobs : List Job) (job_id : String) (now p : Nat) : List Job :=
  (update_job_status jobs true job_id "processing" now
    [("progress", FieldValue.nat p)]).1

/-- The `except` branch of `process_job`: mark the job `error` with the
exception's message, remove the whole job workspace, re-raise. -/
def failOutcome (jobs : List Job) (cache : RCache) (fs : FS) (env : WorkerEnv)
    (job_id msg : String) (trace : List Upd) : WorkerOut :=
  ⟨(update_job_status jobs true job_id "error" env.now
      [("error", FieldValue.str msg), ("processing_time", FieldValue.nat env.elapsed)]).1,
   cache, rmtreeDir fs (job_dir job_id), trace ++ [errUpd msg env.elapsed], some msg⟩

/-- `process_job` from `worker_task.py`, one attempt, in source order:
processing 10; makedirs; processing 20; download; processing 50; separate;
processing 90; enumerate `.wav` outputs; empty list raises
`"No stems were generated"`; otherwise completed 100 with the joined stem
names, then the Redis cache is populated with a 7-day TTL and the fetched
`audio.wav` is removed.  Any raised message lands in the `except` branch
(`failOutcome`).  Worker store commits are modelled as succeeding. -/
def process_job (jobs : List Job) (cache : RCache) (fs : FS) (env : WorkerEnv)
    (url job_id : String) : WorkerOut :=
  let jobs1 := updProc jobs job_id env.now 10
  let fs0 := mkdirs fs (job_dir job_id)
  let jobs2 := updProc jobs1 job_id env.now 20
  match env.downloadResult with
  | .error msg => failOutcome jobs2 cache fs0 env job_id msg [procUpd 10, procUpd 20]
  | .ok _ =>
      let jobs3 := updProc jobs2 job_id env.now 50
      match env.separateResult with
      | .error msg =>
          failOutcome jobs3 cache (fsAfterFetch fs job_id) env job_id msg
            [procUpd 10, procUpd 20, procUpd 50]
      | .ok sdir =>
          let jobs4 := updProc jobs3 job_id env.now 90
          let stem_files := stemFiles (fsAfterTransform fs env job_id sdir) sdir
          if stem_files.isEmpty then
            failOutcome jobs4 cache (fsAfterTransform fs env job_id sdir) env job_id
              "No stems were generated" [procUpd 10, procUpd 20, procUpd 50, procUpd 90]
          else
            let joined := String.intercalate "," stem_files
            ⟨(update_job_status jobs4 true job_id "completed" env.now
                [("progress", FieldValue.nat 100), ("stems", FieldValue.str joined),
                 ("stems_dir", FieldValue.str sdir),
                 ("processing_time", FieldValue.nat env.elapsed)]).1,
             cacheStore cache url ⟨joined, sdir, env.now, 86400 * 7⟩,
             removeFileIfExists (fsAfterTransform fs env job_id sdir)
               (job_dir job_id) "audio.wav",
             [procUpd 10, procUpd 20, procUpd 50, procUpd 90,
              doneUpd joined sdir env.elapsed],
             none⟩

/-! ## C1: retry exhaustion -/

def c1Job : Job := ⟨"j1", "u", "pending", none, none, none, 0, 0, 0, some "ip", none⟩

def c1Env : WorkerEnv := ⟨Except.error "boom", Except.ok "d", [], 3, 7⟩

/-- **C1 (divergence exhibit).** A pipeline whose fetch stage fails
deterministically: already after the *first* failed attempt the record is in
terminal status `error` carrying that attempt's message — the worker's
`except` branch marks the job `error` on every failure, and the configured
`max_retries = 3` / `retry_intervals` of `config.py` are never passed to the
queue (`main.py` enqueues with `retry=True`, which is not an RQ retry
policy).  So Error is reached after one attempt, not after exactly three. -/
theorem c1_error_after_first_failed_attempt :
    settings.max_retries = 3 ∧
    (findJob (process_job [c1Job] [] ⟨[], []⟩ c1Env "u" "j1").jobs "j1").map Job.status =
      some "error" ∧
    (findJob (process_job [c1Job] [] ⟨[], []⟩ c1Env "u" "j1").jobs "j1").map Job.error =
      some (some "boom") ∧
    (process_job [c1Job] [] ⟨[], []⟩ c1Env "u" "j1").trace =
      [procUpd 10, procUpd 20, errUpd "boom" 7] ∧
    (process_job [c1Job] [] ⟨[], []⟩ c1Env "u" "j1").raised = some "boom" := by
  decide

/-! ## C9: effects of reaching completed -/

theorem memPath_iff (p : String × String) (l : List (String × String)) :
    memPath p l = true ↔ p ∈ l := by
  induction l with
  | nil => simp [memPath]
  | cons q rest ih =>
      simp only [memPath, Bool.or_eq_true, decide_eq_true_eq, List.mem_cons, ih]
      constructor
      · rintro (h | h)
        · exact Or.inl h.symm
        · exact Or.inr h
      · rintro (h | h)
        · exact Or.inl h.symm
        · exact Or.inr h

theorem cacheLookup_store (c : RCache) (k : String) (e : CacheEntry) :
    cacheLookup (cacheStore c k e) k = some e := by
  simp [cacheLookup, cacheStore, List.find?]

theorem memPath_removeFile (fs : FS) (d n : String) :
    memPath (d, n) (removeFileIfExists fs d n).files = false := by
  unfold removeFileIfExists
  by_cases h : memPath (d, n) fs.files = true
  · rw [if_pos h]
    rw [Bool.eq_false_iff]
    intro hmem
    rw [memPath_iff] at hmem
    rcases List.mem_filter.mp hmem with ⟨_, hkeep⟩
    simp at hkeep
  · rw [if_neg h]
    exact Bool.eq_false_iff.mpr h

theorem memPath_removeFile_keep (fs : FS) (d n : String) (p : String × String)
    (hp : p ∈ fs.files) (hne : p ≠ (d, n)) :
    memPath p (removeFileIfExists fs d n).files = true := by
  unfold removeFileIfExists
  by_cases h : memPath (d, n) fs.files = true
  · rw [if_pos h, memPath_iff]
    exact List.mem_filter.mpr ⟨hp, by simpa using hne⟩
  · rw [if_neg h, memPath_iff]
    exact hp

/-- **C9.** When both pipeline stages succeed and the output enumeration is
non-empty (and the stems directory is, as in the source layout, distinct from
the job directory holding the fetched artifact), the completed run populates
the URL's cache entry with exactly the enumerated output names, the output
location and a TTL of `86400 * 7` seconds, deletes the fetched `audio.wav`
artifact, and leaves every enumerated output file in place. -/
theorem c9_completion_cache_and_cleanup
    (jobs : List Job) (cache : RCache) (fs : FS) (env : WorkerEnv)
    (url job_id sdir : String)
    (hd : env.downloadResult = Except.ok ()) (hs : env.separateResult = Except.ok sdir)
    (hne : (stemFiles (fsAfterTransform fs env job_id sdir) sdir).isEmpty = false)
    (hdir : sdir ≠ job_dir job_id) :
    cacheLookup (process_job jobs cache fs env url job_id).cache url =
      some ⟨String.intercalate "," (stemFiles (fsAfterTransform fs env job_id sdir) sdir),
            sdir, env.now, 86400 * 7⟩ ∧
    memPath (job_dir job_id, "audio.wav")
      (process_job jobs cache fs env url job_id).fs.files = false ∧
    ((fsAfterTransform fs env job_id sdir).files.filter (fun p => p.1 == sdir)).all
      (fun p => memPath p (process_job jobs cache fs env url job_id).fs.files) = true := by
  have hred : process_job jobs cache fs env url job_id =
      ⟨(update_job_status (updProc (updProc (updProc (updProc jobs job_id env.now 10)
          job_id env.now 20) job_id env.now 50) job_id env.now 90) true job_id
          "completed" env.now
          [("progress", FieldValue.nat 100),
           ("stems", FieldValue.str (String.intercalate ","
              (stemFiles (fsAfterTransform fs env job_id sdir) sdir))),
           ("stems_dir", FieldValue.str sdir),
           ("processing_time", FieldValue.nat env.elapsed)]).1,
       cacheStore cache url ⟨String.intercalate ","
           (stemFiles (fsAfterTransform fs env job_id sdir) sdir),
         sdir, env.now, 86400 * 7⟩,
       removeFileIfExists (fsAfterTransform fs env job_id sdir)
         (job_dir job_id) "audio.wav",
       [procUpd 10, procUpd 20, procUpd 50, procUpd 90,
        doneUpd (String.intercalate ","
          (stemFiles (fsAfterTransform fs env job_id sdir) sdir)) sdir env.elapsed],
       none⟩ := by
    simp only [process_job, hd, hs, hne, Bool.false_eq_true, if_false]
  refine ⟨?_, ?_, ?_⟩
  · rw [hred]
    exact cacheLookup_store cache url _
  · rw [hred]
    exact memPath_removeFile _ _ _
  · rw [hred]
    rw [List.all_eq_true]
    intro p hpf
    rcases List.mem_filter.mp hpf with ⟨hpmem, hpd⟩
    refine memPath_removeFile_keep _ _ _ p hpmem ?_
    intro hcontra
    apply hdir
    have : p.1 = sdir := by simpa using hpd
    rw [hcontra] at this
    exact this.symm

def c9Job : Job := ⟨"j9", "u9", "pending", none, none, none, 0, 0, 0, some "ip", none⟩

def c9Env : WorkerEnv := ⟨Except.ok (), Except.ok "s9", ["vocals.wav", "drums.wav"], 3, 9⟩

/-- Witness for C9 on a concrete successful run with two produced stems. -/
theorem c9_completion_witness :
    cacheLookup (process_job [c9Job] [] ⟨[], []⟩ c9Env "u9" "j9").cache "u9" =
      some ⟨String.intercalate ","
          (stemFiles (fsAfterTransform ⟨[], []⟩ c9Env "j9" "s9") "s9"),
        "s9", 3, 86400 * 7⟩ ∧
    memPath (job_dir "j9", "audio.wav")
      (process_job [c9Job] [] ⟨[], []⟩ c9Env "u9" "j9").fs.files = false ∧
    ((fsAfterTransform ⟨[], []⟩ c9Env "j9" "s9").files.filter (fun p => p.1 == "s9")).all
      (fun p => memPath p (process_job [c9Job] [] ⟨[], []⟩ c9Env "u9" "j9").fs.files) =
      true :=
  c9_completion_cache_and_cleanup [c9Job] [] ⟨[], []⟩ c9Env "u9" "j9" "s9"
    rfl rfl (by decide) (by decide)

/-! ## C7: empty output enumeration -/

def c7Job : Job := ⟨"j7", "u7", "pending", none, none, none, 0, 0, 0, some "ip", none⟩

def c7Env : WorkerEnv := ⟨Except.ok (), Except.ok "s7", [], 3, 7⟩

/-- **C7, counterexample.** Fetch and transform succeed but the output
enumeration is empty: the record does transition processing → error, but the
stored message is the literal `"No stems were generated"` from
`worker_task.py`, not the claimed `"no outputs produced"`. -/
theorem c7_empty_outputs_message_differs :
    (findJob (process_job [c7Job] [] ⟨[], []⟩ c7Env "u7" "j7").jobs "j7").map Job.status =
      some "error" ∧
    (findJob (process_job [c7Job] [] ⟨[], []⟩ c7Env "u7" "j7").jobs "j7").map Job.error =
      some (some "No stems were generated") ∧
    ¬(findJob (process_job [c7Job] [] ⟨[], []⟩ c7Env "u7" "j7").jobs "j7").map Job.error =
      some (some "no outputs produced") := by
  decide

/-- **C7 (amended).** Whenever the transform stage succeeds but the output
enumeration is empty, the job transitions from processing (after the four
progress updates 10/20/50/90) to `error`, with the error message
`"No stems were generated"` (the spec's table writes this message as
`"no outputs produced"`), and the attempt re-raises that message. -/
theorem c7_empty_outputs_error (jobs : List Job) (cache : RCache) (fs : FS)
    (env : WorkerEnv) (url job_id sdir : String)
    (hd : env.downloadResult = Except.ok ()) (hs : env.separateResult = Except.ok sdir)
    (he : (stemFiles (fsAfterTransform fs env job_id sdir) sdir).isEmpty = true) :
    (process_job jobs cache fs env url job_id).trace =
      [procUpd 10, procUpd 20, procUpd 50, procUpd 90,
       errUpd "No stems were generated" env.elapsed] ∧
    (process_job jobs cache fs env url job_id).raised =
      some "No stems were generated" := by
  simp only [process_job, hd, hs, he, if_true, failOutcome]
  trivial

/-- Witness for the amended C7 on a concrete run with no produced files. -/
theorem c7_empty_outputs_error_witness :
    (process_job [c7Job] [] ⟨[], []⟩ c7Env "u7" "j7").trace =
      [procUpd 10, procUpd 20, procUpd 50, procUpd 90,
       errUpd "No stems were generated" 7] ∧
    (process_job [c7Job] [] ⟨[], []⟩ c7Env "u7" "j7").raised =
      some "No stems were generated" :=
  c7_empty_outputs_error [c7Job] [] ⟨[], []⟩ c7Env "u7" "j7" "s7" rfl rfl (by decide)

/-! ## C4: the §4.4 state machine over status/progress updates -/

/-- The progress value an update call carries, if any. -/
def kwProgress : Kw → Option Nat
  | [] => none
  | (k, v) :: rest => if k = "progress" then asNat v else kwProgress rest

/-- Effective progress after an update: a `progress` keyword overwrites the
stored value, otherwise it persists. -/
def updProgress (u : Upd) (p : Nat) : Nat := (kwProgress u.kwargs).getD p

/-- One legal §4.4 step over (status, progress) pairs: Pending is claimed at
progress 10; Processing advances 10→20→50→90, completes at 100, or errors at
any point leaving progress untouched; Completed and Error are stable. -/
def stepOk : String × Nat → String × Nat → Bool
  | ("pending", _), ("processing", 10) => true
  | ("processing", 10), ("processing", 20) => true
  | ("processing", 20), ("processing", 50) => true
  | ("processing", 50), ("processing", 90) => true
  | ("processing", 90), ("completed", 100) => true
  | ("processing", p), ("error", q) => p == q
  | _, _ => false

/-- The update sequence follows §4.4 starting from a (status, progress). -/
def legalFrom : String × Nat → List Upd → Bool
  | _, [] => true
  | s, u :: rest =>
      stepOk s (u.status, updProgress u s.2) &&
        legalFrom (u.status, updProgress u s.2) rest

/-- The successive effective progress values along an update sequence. -/
def progSeq : Nat → List Upd → List Nat
  | _, [] => []
  | p, u :: rest => updProgress u p :: progSeq (updProgress u p) rest

def nondecreasing : List Nat → Bool
  | [] => true
  | [_] => true
  | a :: b :: rest => decide (a ≤ b) && nondecreasing (b :: rest)

def c4Env : SubmitEnv := ⟨true, "d1", 5, false, "redis down", true⟩

/-- **C4, counterexample.** A submission whose enqueue fails writes a direct
pending → error update for the fresh record — a transition §4.4 does not
contain (from Pending the only exit is `claimed → Processing`), so the claim
quantified over *every* job fails on the enqueue-failure path. -/
theorem c4_enqueue_failure_pending_to_error :
    (separate_audio settings ⟨[], [], []⟩ c4Env "u" "ip").trace =
      [⟨"error", [("error", FieldValue.str "redis down")]⟩] ∧
    legalFrom ("pending", 0)
      (separate_audio settings ⟨[], [], []⟩ c4Env "u" "ip").trace = false ∧
    (findJob (separate_audio settings ⟨[], [], []⟩ c4Env "u" "ip").sys.jobs "d1").map
      Job.status = some "error" := by
  decide

/-- **C4 (amended).** Every worker attempt writes a §4.4-legal update
sequence from (pending, 0) — pending → processing at 10, then 20, 50, 90,
then completed at 100 or error with progress untouched — with monotonically
non-decreasing progress; the submission path writes either no status update
at all or, only when the enqueue fails, one direct pending → error update
(the exception the counterexample exhibits), which also keeps progress
monotone. -/
theorem c4_traces_follow_state_machine :
    (∀ jobs cache fs env url job_id,
      legalFrom ("pending", 0) (process_job jobs cache fs env url job_id).trace = true ∧
      nondecreasing (progSeq 0 (process_job jobs cache fs env url job_id).trace) = true) ∧
    (∀ cfg st env url client_ip,
      nondecreasing (progSeq 0 (separate_audio cfg st env url client_ip).trace) = true ∧
      ((separate_audio cfg st env url client_ip).trace = [] ∨
        (env.enqueueOk = false ∧
         (separate_audio cfg st env url client_ip).trace =
           [⟨"error", [("error", FieldValue.str env.enqueueErrMsg)]⟩]))) := by
  constructor
  · intro jobs cache fs env url job_id
    rcases hdr : env.downloadResult with msg | u
    · constructor
      · simp only [process_job, hdr, failOutcome]
        rfl
      · simp only [process_job, hdr, failOutcome]
        rfl
    · rcases hsr : env.separateResult with msg | sdir
      · constructor
        · simp only [process_job, hdr, hsr, failOutcome]
          rfl
        · simp only [process_job, hdr, hsr, failOutcome]
          rfl
      · by_cases hemp : (stemFiles (fsAfterTransform fs env job_id sdir) sdir).isEmpty = true
        · constructor
          · simp only [process_job, hdr, hsr, hemp, if_true, failOutcome]
            rfl
          · simp only [process_job, hdr, hsr, hemp, if_true, failOutcome]
            rfl
        · rw [Bool.not_eq_true] at hemp
          constructor
          · simp only [process_job, hdr, hsr, hemp, Bool.false_eq_true, if_false]
            rfl
          · simp only [process_job, hdr, hsr, hemp, Bool.false_eq_true, if_false]
            rfl
  · intro cfg st env url client_ip
    unfold separate_audio
    by_cases hv : env.urlValid = false
    · rw [if_pos hv]
      exact ⟨rfl, Or.inl rfl⟩
    · rw [if_neg hv]
      by_cases hcap : cfg.max_concurrent_jobs ≤ get_active_jobs_count st.jobs client_ip
      · rw [if_pos hcap]
        exact ⟨rfl, Or.inl rfl⟩
      · rw [if_neg hcap]
        rcases hc : cacheLookup st.cache url with _ | entry
        · by_cases he : env.enqueueOk
          · rw [if_pos he]
            exact ⟨rfl, Or.inl rfl⟩
          · rw [if_neg he]
            exact ⟨rfl, Or.inr ⟨by simpa using he, rfl⟩⟩
        · exact ⟨rfl, Or.inl rfl⟩

/-! ## C6: stem retrieval (`download_stem` in `main.py`) -/

inductive DlResult
  | notFound (detail : String)
  | invalidName
  | fileResp (dir name : String)
deriving DecidableEq

def isFileResp : DlResult → Bool
  | .fileResp _ _ => true
  | _ => false

/-- Python `stem.replace("_", "").replace("-", "").isalnum()`.  `isalnum` is
modelled on the ASCII range (`Char.isAlphanum`); Python's `isalnum` also
accepts further Unicode alphanumerics, so rejection theorems quantify only
over names with an offending ASCII character, where the two coincide.
Note Python's `"".isalnum()` is `False`, so an all-underscore/hyphen name is
also rejected. -/
def stemNameOk (stem : String) : Bool :=
  !(stem.data.filter (fun c => !decide (c = '_') && !decide (c = '-'))).isEmpty &&
    (stem.data.filter (fun c => !decide (c = '_') && !decide (c = '-'))).all Char.isAlphanum

/-- `GET /download/(job_id)/(stem)` from `main.py`, with the job row already
fetched: 404 for a missing or non-completed job or missing `stems_dir`, 400
for a name failing the charset check, then — only now touching the
filesystem — 404 if the `.wav` file is absent, else the file response.  The
second component lists the paths probed with `os.path.exists`. -/
def download_stem (jobRow : Option Job) (fs : FS) (stem : String) :
    DlResult × List (String × String) :=
  match jobRow with
  | none => (.notFound "Job not found or not completed", [])
  | some j =>
      if j.status = "completed" then
        if j.stems_dir.getD "" = "" then (.notFound "Stems directory not found", [])
        else if stemNameOk stem = false then (.invalidName, [])
        else if memPath (j.stems_dir.getD "", stem ++ ".wav") fs.files then
          (.fileResp (j.stems_dir.getD "") (stem ++ ".wav"),
           [(j.stems_dir.getD "", stem ++ ".wav")])
        else (.notFound "Stem file not found", [(j.stems_dir.getD "", stem ++ ".wav")])
      else (.notFound "Job not found or not completed", [])

theorem stemNameOk_false_of_bad (stem : String) (c : Char) (hc : c ∈ stem.data)
    (ha : ¬c.isAlphanum = true) (hu : ¬c = '_') (hh : ¬c = '-') :
    stemNameOk stem = false := by
  rw [Bool.eq_false_iff]
  intro h
  rw [stemNameOk, Bool.and_eq_true, List.all_eq_true] at h
  refine ha (h.2 c ?_)
  rw [List.mem_filter]
  exact ⟨hc, by simp [hu, hh]⟩

/-- **C6.** (a) A stem name containing an ASCII character outside
alphanumerics, underscore and hyphen is rejected with no filesystem probe at
all and never answered with file contents; (b) an unknown job id yields
not-found with no probe; (c) a job that is not completed yields not-found
with no probe; (d) a validated name whose stem file is absent on disk yields
not-found, after probing exactly that one path. -/
theorem c6_download_stem_safety :
    (∀ jobRow fs stem,
      (∃ c ∈ stem.data, c.toNat < 128 ∧
        ¬(c.isAlphanum = true ∨ c = '_' ∨ c = '-')) →
      (download_stem jobRow fs stem).2 = [] ∧
      isFileResp (download_stem jobRow fs stem).1 = false) ∧
    (∀ fs stem, download_stem none fs stem =
      (.notFound "Job not found or not completed", [])) ∧
    (∀ (j : Job) fs stem, ¬j.status = "completed" →
      download_stem (some j) fs stem =
        (.notFound "Job not found or not completed", [])) ∧
    (∀ (j : Job) fs stem sdir, j.status = "completed" → j.stems_dir = some sdir →
      ¬sdir = "" → stemNameOk stem = true →
      memPath (sdir, stem ++ ".wav") fs.files = false →
      download_stem (some j) fs stem =
        (.notFound "Stem file not found", [(sdir, stem ++ ".wav")])) := by
  refine ⟨?_, ?_, ?_, ?_⟩
  · intro jobRow fs stem hbad
    obtain ⟨c, hc, _, hprop⟩ := hbad
    push_neg at hprop
    obtain ⟨ha, hu, hh⟩ := hprop
    have hbadname := stemNameOk_false_of_bad stem c hc (by simpa using ha) hu hh
    match jobRow with
    | none => exact ⟨rfl, rfl⟩
    | some j =>
        simp only [download_stem]
        by_cases hst : j.status = "completed"
        · rw [if_pos hst]
          by_cases hemp : j.stems_dir.getD "" = ""
          · rw [if_pos hemp]
            exact ⟨rfl, rfl⟩
          · rw [if_neg hemp, if_pos hbadname]
            exact ⟨rfl, rfl⟩
        · rw [if_neg hst]
          exact ⟨rfl, rfl⟩
  · intro fs stem
    rfl
  · intro j fs stem hst
    simp only [download_stem]
    rw [if_neg hst]
  · intro j fs stem sdir hst hsd hemp hok hmiss
    simp only [download_stem, hsd, Option.getD_some]
    rw [if_pos hst, if_neg hemp, if_neg (by simp [hok]), if_neg (by simp [hmiss])]

def c6Job : Job :=
  ⟨"j6", "u", "completed", some "vocals", some "jobs/j6/h/a", none, 100, 0, 0, some "ip", none⟩

def c6PendingJob : Job := ⟨"j6p", "u", "pending", none, none, none, 0, 0, 0, some "ip", none⟩

/-- Witness for C6: the path-traversal name `"../../etc/passwd"` is rejected
with no filesystem probe; a missing job, a pending job, and a missing file
each give not-found. -/
theorem c6_download_stem_witness :
    ((download_stem (some c6Job) ⟨[], []⟩ "../../etc/passwd").2 = [] ∧
      isFileResp (download_stem (some c6Job) ⟨[], []⟩ "../../etc/passwd").1 = false) ∧
    download_stem none ⟨[], []⟩ "vocals" =
      (.notFound "Job not found or not completed", []) ∧
    download_stem (some c6PendingJob) ⟨[], []⟩ "vocals" =
      (.notFound "Job not found or not completed", []) ∧
    download_stem (some c6Job) ⟨[], []⟩ "vocals" =
      (.notFound "Stem file not found", [("jobs/j6/h/a", "vocals.wav")]) := by
  refine ⟨?_, ?_, ?_, ?_⟩
  · exact c6_download_stem_safety.1 (some c6Job) ⟨[], []⟩ "../../etc/passwd"
      ⟨'.', by decide, by decide, by decide⟩
  · exact c6_download_stem_safety.2.1 ⟨[], []⟩ "vocals"
  · exact c6_download_stem_safety.2.2.1 c6PendingJob ⟨[], []⟩ "vocals" (by decide)
  · exact c6_download_stem_safety.2.2.2 c6Job ⟨[], []⟩ "vocals" "jobs/j6/h/a"
      (by decide) (by decide) (by decide) (by decide) (by decide)

/-! ## C8: the retention sweeper (`cleanup_old_jobs` in `worker_task.py`) -/

/-- Split a character sequence at `/` (for `os.path.dirname`). -/
def splitSlash : List Char → List (List Char)
  | [] => [[]]
  | c :: rest =>
      if c = '/' then [] :: splitSlash rest
      else
        match splitSlash rest with
        | [] => [[c]]
        | g :: gs => (c :: g) :: gs

/-- `os.path.dirname` for the slash-separated paths this system builds. -/
def dirnameOf (p : String) : String :=
  String.intercalate "/" (((splitSlash p.data).map fun l => String.mk l).dropLast)

/-- `cleanup_old_jobs` from `worker_task.py`.  The first statement of its
`try` block evaluates `datetime.utcnow() - timedelta(days=7)`, but
`worker_task.py` imports only `datetime` from the `datetime` module, never
`timedelta`, so this raises `NameError` before the selection query runs; the
outer `except` logs it and rolls the session back, `finally` closes it.  Net
effect on the store and the filesystem: none, on every invocation. -/
def cleanup_old_jobs (jobs : List Job) (fs : FS) : List Job × FS := (jobs, fs)

/-- The sweep loop of `cleanup_old_jobs` as written — reachable only if
`timedelta` resolved: select rows with `created_at` before now minus 7 days
(stated additively to avoid truncated subtraction), for each remove the tree
at `os.path.dirname(stems_dir)` when `stems_dir` is truthy and exists, and
delete the row; the commit after the loop makes the deletions effective. -/
def cleanup_sweep_as_written (now : Nat) (jobs : List Job) (fs : FS) : List Job × FS :=
  (jobs.filter (fun j => !decide (j.created_at + 7 * 86400 < now)),
   (jobs.filter (fun j => decide (j.created_at + 7 * 86400 < now))).foldl
     (fun acc j =>
       match j.stems_dir with
       | none => acc
       | some d =>
           if !decide (d = "") && memDir d acc.dirs then rmtreeDir acc (dirnameOf d)
           else acc)
     fs)

def c8Job : Job :=
  ⟨"j8", "u", "completed", some "vocals", some "jobs/j8/model/audio", none, 100, 0, 0,
   some "ip", none⟩

def c8FS : FS :=
  ⟨[("jobs/j8/model/audio", "vocals.wav")],
   ["jobs", "jobs/j8", "jobs/j8/model", "jobs/j8/model/audio"]⟩

/-- **C8 (divergence exhibit).** At tick 10 days the store holds a terminal
record created at tick 0 — well past the 7-day threshold — with an on-disk
artifact.  The sweeper as shipped removes nothing (its body raises
`NameError` on every run, `timedelta` being unimported), while the
selection-and-delete loop as written would have removed both the record and
its artifact tree. -/
theorem c8_sweeper_never_deletes :
    cleanup_old_jobs [c8Job] c8FS = ([c8Job], c8FS) ∧
    (cleanup_sweep_as_written (10 * 86400) [c8Job] c8FS).1 = [] ∧
    memPath ("jobs/j8/model/audio", "vocals.wav")
      (cleanup_sweep_as_written (10 * 86400) [c8Job] c8FS).2.files = false := by
  decide
